import Mathlib

/-!
# Project tracker front end: the state controller of `src/App.jsx`

The component `App` keeps four pieces of React state (`projects`,
`newProjectName`, `userId`, `isLoading`) and four asynchronous functions
(`fetchProjects`, `handleAddProject`, `handleToggleProject`,
`handleDeleteProject`) that call `fetch`.

Two views of the same code are embedded.

* Run to completion: a function is applied to the state it was rendered with
  and to a network `net : Request → FetchResult` that answers each request; it
  returns the state after all its `setState` calls, the requests it issued in
  order, and the messages it passed to `console.error`.
* Event by event: `Sys` keeps the requests in flight together with the
  continuation that waits for each, and `step` performs one browser event (an
  auth callback, a keystroke, a click, the settling of one request in flight).
  Requests may settle in any order.

JavaScript truthiness is kept: `!userId` holds for `null` and for the empty
string, `!newProjectName.trim()` holds when the trimmed draft is empty.
-/

namespace ProjectTracker

/-! ## Data model -/

/-- One element of the array the backend returns for the list request. -/
structure Project where
  projectId : String
  projectName : String
  completed : Bool
deriving DecidableEq, Repr

/-- The four `useState` cells of `App` (lines 10-13). -/
structure AppState where
  projects : List Project
  newProjectName : String
  userId : Option String
  isLoading : Bool
deriving DecidableEq, Repr

/-- Initial values of the `useState` cells: `[]`, `''`, `null`, `true`. -/
def initialState : AppState :=
  { projects := [], newProjectName := "", userId := none, isLoading := true }

/-- The constant `API_URL` (line 17). -/
def API_URL : String :=
  "https://YOUR_API_ID.execute-api.REGION.amazonaws.com/prod/projects"

inductive Method where
  | GET
  | POST
  | PUT
  | DELETE
deriving DecidableEq, Repr

/-- Values that occur in the objects given to `JSON.stringify`. -/
inductive JsonValue where
  | str (s : String)
  | bool (b : Bool)
deriving DecidableEq, Repr

/-- What is handed to `fetch`: the URL and the options object.  A body is the
list of fields of the stringified object, in source order. -/
structure Request where
  method : Method
  url : String
  headers : List (String × String)
  body : Option (List (String × JsonValue))
deriving DecidableEq, Repr

/-- How an awaited `fetch` settles.  `rejected` is a thrown network error;
`response ok json` is a resolved response with its `ok` flag, where `json` is
`none` when `response.json()` throws. -/
inductive FetchResult where
  | rejected
  | response (ok : Bool) (json : Option (List Project))
deriving DecidableEq, Repr

/-- Result of running an async function to completion. -/
structure Outcome where
  state : AppState
  requests : List Request
  errors : List String
deriving DecidableEq, Repr

/-! ## JavaScript helpers -/

/-- Code points removed by `String.prototype.trim`: WhiteSpace and
LineTerminator of ECMAScript.  All of them lie in the basic multilingual
plane, so trimming code points and trimming UTF-16 code units agree. -/
def isJsWhiteSpace (c : Char) : Bool :=
  c.toNat = 0x09 || c.toNat = 0x0A || c.toNat = 0x0B || c.toNat = 0x0C ||
  c.toNat = 0x0D || c.toNat = 0x20 || c.toNat = 0xA0 || c.toNat = 0x1680 ||
  (0x2000 ≤ c.toNat && c.toNat ≤ 0x200A) ||
  c.toNat = 0x2028 || c.toNat = 0x2029 || c.toNat = 0x202F ||
  c.toNat = 0x205F || c.toNat = 0x3000 || c.toNat = 0xFEFF

/-- The method `trim` on the characters of a string. -/
def trimChars (l : List Char) : List Char :=
  (l.dropWhile isJsWhiteSpace).rdropWhile isJsWhiteSpace

/-- The method `String.prototype.trim`. -/
def jsTrim (s : String) : String :=
  String.mk (trimChars s.data)

/-- The test `userId` of `if (!userId) return;`: `null` and `''` are falsy.
Returns the string when it is truthy. -/
def truthyUserId : Option String → Option String
  | none => none
  | some u => if u = "" then none else some u

/-! ## Requests built by the component -/

/-- The call `fetch(API_URL + '?userId=' + userId)` of line 67. -/
def listRequest (uid : String) : Request :=
  { method := .GET, url := API_URL ++ "?userId=" ++ uid, headers := [], body := none }

/-- The call to `fetch` of lines 91-100. -/
def createRequest (uid : String) (projectName : String) : Request :=
  { method := .POST, url := API_URL,
    headers := [("Content-Type", "application/json")],
    body := some [("userId", .str uid), ("projectName", .str projectName)] }

/-- The call to `fetch` of lines 112-121; `completed` is the value already
negated by the caller. -/
def updateRequest (uid : String) (projectId : String) (completed : Bool) : Request :=
  { method := .PUT, url := API_URL ++ "/" ++ projectId,
    headers := [("Content-Type", "application/json")],
    body := some [("userId", .str uid), ("completed", .bool completed)] }

/-- The call to `fetch` of lines 132-134. -/
def deleteRequest (uid : String) (projectId : String) : Request :=
  { method := .DELETE, url := API_URL ++ "/" ++ projectId ++ "?userId=" ++ uid,
    headers := [], body := none }

/-! ## Run-to-completion semantics -/

/-- Lines 67-77 of `fetchProjects`, from the point where the awaited `fetch`
settles: parse the body, replace `projects` when `response.ok`, log otherwise,
and in all cases `setIsLoading(false)`. -/
def fetchProjectsResume (s : AppState) (r : FetchResult) : AppState × List String :=
  match r with
  | .rejected => ({ s with isLoading := false }, ["Network error:"])
  | .response _ none => ({ s with isLoading := false }, ["Network error:"])
  | .response true (some data) => ({ s with projects := data, isLoading := false }, [])
  | .response false (some _) => ({ s with isLoading := false }, ["Failed to fetch projects:"])

/-- The function `fetchProjects` (lines 63-78). -/
def fetchProjects (s : AppState) (net : Request → FetchResult) : Outcome :=
  match truthyUserId s.userId with
  | none => { state := s, requests := [], errors := [] }
  | some uid =>
    let req := listRequest uid
    let r := fetchProjectsResume { s with isLoading := true } (net req)
    { state := r.1, requests := [req], errors := r.2 }

/-- The function `handleAddProject` (lines 87-106).  The call
`e.preventDefault()` touches neither the state nor the network.  The inner
call of `fetchProjects` is the closure of the same render, so it tests and
sends the same `userId`. -/
def handleAddProject (s : AppState) (net : Request → FetchResult) : Outcome :=
  if jsTrim s.newProjectName = "" then { state := s, requests := [], errors := [] }
  else
    match truthyUserId s.userId with
    | none => { state := s, requests := [], errors := [] }
    | some uid =>
      let req := createRequest uid (jsTrim s.newProjectName)
      match net req with
      | .rejected => { state := s, requests := [req], errors := ["Error adding project:"] }
      | .response _ _ =>
        let o := fetchProjects { s with newProjectName := "" } net
        { state := o.state, requests := req :: o.requests, errors := o.errors }

/-- The function `handleToggleProject` (lines 109-126). -/
def handleToggleProject (s : AppState) (projectId : String) (completed : Bool)
    (net : Request → FetchResult) : Outcome :=
  match truthyUserId s.userId with
  | none => { state := s, requests := [], errors := [] }
  | some uid =>
    let req := updateRequest uid projectId (!completed)
    match net req with
    | .rejected => { state := s, requests := [req], errors := ["Error toggling project:"] }
    | .response _ _ =>
      let o := fetchProjects s net
      { state := o.state, requests := req :: o.requests, errors := o.errors }

/-- The function `handleDeleteProject` (lines 129-139). -/
def handleDeleteProject (s : AppState) (projectId : String)
    (net : Request → FetchResult) : Outcome :=
  match truthyUserId s.userId with
  | none => { state := s, requests := [], errors := [] }
  | some uid =>
    let req := deleteRequest uid projectId
    match net req with
    | .rejected => { state := s, requests := [req], errors := ["Error deleting project:"] }
    | .response _ _ =>
      let o := fetchProjects s net
      { state := o.state, requests := req :: o.requests, errors := o.errors }

/-- Number of requests with method `m` among the requests issued. -/
def countMethod (m : Method) (rs : List Request) : Nat :=
  (rs.filter (fun r => decide (r.method = m))).length

/-! ## Event-by-event semantics -/

/-- The code that waits for a request in flight.  The handlers are closures:
the `userId` they were rendered with is captured and is what the later call of
`fetchProjects` tests and sends. -/
inductive Continuation where
  | list
  | create (uid : String)
  | refresh (uid : String)
deriving DecidableEq, Repr

structure InFlight where
  request : Request
  cont : Continuation
deriving DecidableEq, Repr

/-- The component together with the requests that have not settled yet, in the
order in which they were issued. -/
structure Sys where
  app : AppState
  inFlight : List InFlight
deriving DecidableEq, Repr

def initialSys : Sys := { app := initialState, inFlight := [] }

/-- One browser event.  `authStateChanged user` is the callback of line 47 with
the uid of `user`, or `none` for a null user; `initFailed` is the `catch` of
line 55; `effectFetch` is the effect of line 81; `settled i r` is the settling
with `r` of the request at position `i` of the requests in flight. -/
inductive Event where
  | authStateChanged (user : Option String)
  | initFailed
  | draftChanged (value : String)
  | effectFetch
  | submit
  | toggle (projectId : String) (completed : Bool)
  | delete (projectId : String)
  | settled (i : Nat) (r : FetchResult)
deriving DecidableEq, Repr

/-- Lines 64-67 of `fetchProjects`, up to the first `await`, for a closure
rendered with `closureUserId`. -/
def fetchProjectsBegin (closureUserId : Option String) (s : Sys) : Sys :=
  match truthyUserId closureUserId with
  | none => s
  | some uid =>
    { app := { s.app with isLoading := true },
      inFlight := s.inFlight ++ [{ request := listRequest uid, cont := .list }] }

/-- The code run when a request in flight settles with `r`. -/
def resume (s : Sys) (k : Continuation) (r : FetchResult) : Sys :=
  match k with
  | .list => { s with app := (fetchProjectsResume s.app r).1 }
  | .create uid =>
    match r with
    | .rejected => s
    | .response _ _ =>
      fetchProjectsBegin (some uid) { s with app := { s.app with newProjectName := "" } }
  | .refresh uid =>
    match r with
    | .rejected => s
    | .response _ _ => fetchProjectsBegin (some uid) s

/-- One event.  `none` when the event cannot happen (no such request in
flight). -/
def step (s : Sys) : Event → Option Sys
  | .authStateChanged user =>
    match user with
    | some uid => some { s with app := { s.app with userId := some uid, isLoading := false } }
    | none => some { s with app := { s.app with isLoading := false } }
  | .initFailed => some { s with app := { s.app with isLoading := false } }
  | .draftChanged value => some { s with app := { s.app with newProjectName := value } }
  | .effectFetch => some (fetchProjectsBegin s.app.userId s)
  | .submit =>
    if jsTrim s.app.newProjectName = "" then some s
    else
      match truthyUserId s.app.userId with
      | none => some s
      | some uid =>
        some { s with inFlight := s.inFlight ++
          [{ request := createRequest uid (jsTrim s.app.newProjectName), cont := .create uid }] }
  | .toggle projectId completed =>
    match truthyUserId s.app.userId with
    | none => some s
    | some uid =>
      some { s with inFlight := s.inFlight ++
        [{ request := updateRequest uid projectId (!completed), cont := .refresh uid }] }
  | .delete projectId =>
    match truthyUserId s.app.userId with
    | none => some s
    | some uid =>
      some { s with inFlight := s.inFlight ++
        [{ request := deleteRequest uid projectId, cont := .refresh uid }] }
  | .settled i r =>
    match s.inFlight[i]? with
    | none => none
    | some f => some (resume { s with inFlight := s.inFlight.eraseIdx i } f.cont r)

/-- A sequence of events, in the order in which they happen. -/
def run (s : Sys) : List Event → Option Sys
  | [] => some s
  | e :: es => (step s e).bind (fun s' => run s' es)

/-- States the component can be in after some sequence of events. -/
def Reachable (s : Sys) : Prop := ∃ es, run initialSys es = some s

/-- Auth callback or failed initialisation: the events of the first effect. -/
def isIdentityEvent : Event → Bool
  | .authStateChanged _ => true
  | .initFailed => true
  | _ => false

/-- Data of the last response that `fetchProjectsResume` stores, if any. -/
def lastSuccessfulData : List FetchResult → Option (List Project)
  | [] => none
  | r :: rs =>
    match lastSuccessfulData rs with
    | some d => some d
    | none =>
      match r with
      | .response true (some data) => some data
      | _ => none

/-- Processing of list responses in the order in which they resolve. -/
def settleAll (s : AppState) (rs : List FetchResult) : AppState :=
  rs.foldl (fun st r => (fetchProjectsResume st r).1) s

/-! ## States, traces and predicates used in the statements -/

/-- A session whose `userId` is the empty string: not null, yet falsy. -/
def emptyUidState : AppState :=
  { projects := [], newProjectName := "Write spec", userId := some "", isLoading := false }

/-- A session with user id `u1` and a draft with white space around it. -/
def readyState : AppState :=
  { projects := [{ projectId := "p0", projectName := "Read code", completed := true }],
    newProjectName := "  Write spec ", userId := some "u1", isLoading := false }

/-- The list requests a handler adds after its mutation request settled:
none when the awaited `fetch` rejected (control goes to `catch`), one when it
resolved, whatever the status of the response. -/
def refetchAfter (u : String) : FetchResult → List Request
  | .rejected => []
  | .response _ _ => [listRequest u]

/-- The list request failed: `fetch` threw, the body could not be parsed, or
the response was not `ok`. -/
def listFetchFails : FetchResult → Bool
  | .rejected => true
  | .response _ none => true
  | .response ok (some _) => !ok

/-- The create request failed: `fetch` threw, or the response was not `ok`. -/
def mutationFails : FetchResult → Bool
  | .rejected => true
  | .response ok _ => !ok

/-- Two list requests in flight for user `u1`, with one project on screen. -/
def twoListsInFlight : Sys :=
  { app := { readyState with isLoading := true },
    inFlight := [{ request := listRequest "u1", cont := .list },
                 { request := listRequest "u1", cont := .list }] }

/-- While `userId` is null nothing is shown and nothing is in flight; and
every list request in flight was built from a non-empty user id. -/
def Inv (s : Sys) : Prop :=
  (s.app.userId = none → s.app.projects = [] ∧ s.inFlight = []) ∧
  (∀ f ∈ s.inFlight, f.cont = .list → ∃ uid, uid ≠ "" ∧ f.request = listRequest uid)

/-- No user id, still loading, nothing in flight. -/
def Unresolved (s : Sys) : Prop :=
  s.app.userId = none ∧ s.app.isLoading = true ∧ s.inFlight = []

/-- Events after which `userId` is the empty string while a project is
listed: sign-in of `u1`, the list effect, its response with one project, and
an auth callback whose user has the empty uid. -/
def emptyUidTrace : List Event :=
  [.authStateChanged (some "u1"), .effectFetch,
   .settled 0 (.response true (some readyState.projects)),
   .authStateChanged (some "")]

/-! ## Lemmas on the helpers -/

theorem truthyUserId_none : truthyUserId none = none := rfl

theorem truthyUserId_some {u : String} (h : u ≠ "") : truthyUserId (some u) = some u := by
  simp [truthyUserId, h]

theorem truthyUserId_eq_some {o : Option String} {u : String}
    (h : truthyUserId o = some u) : o = some u ∧ u ≠ "" := by
  cases o with
  | none => simp [truthyUserId] at h
  | some v =>
    by_cases hv : v = ""
    · simp [truthyUserId, hv] at h
    · simp [truthyUserId, hv] at h
      subst h
      exact ⟨rfl, hv⟩

theorem trimChars_of_all_white (l : List Char) (h : ∀ c ∈ l, isJsWhiteSpace c = true) :
    trimChars l = [] := by
  have h1 : l.dropWhile isJsWhiteSpace = [] := List.dropWhile_eq_nil_iff.mpr h
  simp [trimChars, h1]

theorem jsTrim_of_all_white (d : String) (h : ∀ c ∈ d.data, isJsWhiteSpace c = true) :
    jsTrim d = "" := by
  unfold jsTrim
  rw [trimChars_of_all_white d.data h]

theorem jsTrim_ne_empty_iff (d : String) : jsTrim d ≠ "" ↔ trimChars d.data ≠ [] := by
  unfold jsTrim
  constructor
  · intro h hn
    apply h
    rw [hn]
  · intro h hn
    apply h
    have := congrArg String.data hn
    simpa using this

/-- The trimmed characters do not end in white space. -/
theorem trimChars_getLast (l : List Char) (h : trimChars l ≠ []) :
    isJsWhiteSpace ((trimChars l).getLast h) = false := by
  have := List.rdropWhile_last_not isJsWhiteSpace (l.dropWhile isJsWhiteSpace) h
  simpa [trimChars] using this

theorem head_eq_of_prefix {xs ys : List Char} (hp : xs <+: ys) (hx : xs ≠ []) (hy : ys ≠ []) :
    ys.head hy = xs.head hx := by
  obtain ⟨t, ht⟩ := hp
  subst ht
  cases xs with
  | nil => exact absurd rfl hx
  | cons a as => rfl

/-- The trimmed characters do not start with white space. -/
theorem trimChars_head (l : List Char) (h : trimChars l ≠ []) :
    isJsWhiteSpace ((trimChars l).head h) = false := by
  have hpre : trimChars l <+: l.dropWhile isJsWhiteSpace := List.rdropWhile_prefix _ _
  have hne : l.dropWhile isJsWhiteSpace ≠ [] := by
    intro h0
    rw [h0] at hpre
    exact h (List.prefix_nil.mp hpre)
  rw [← head_eq_of_prefix hpre h hne]
  have := List.head_dropWhile_not isJsWhiteSpace l hne
  simpa using this

/-! ## Guards of the handlers -/

theorem fetchProjects_requests (s : AppState) (net : Request → FetchResult) (u : String)
    (h : truthyUserId s.userId = some u) :
    (fetchProjects s net).requests = [listRequest u] := by
  simp [fetchProjects, h]

theorem fetchProjects_falsy (s : AppState) (net : Request → FetchResult)
    (h : truthyUserId s.userId = none) :
    fetchProjects s net = { state := s, requests := [], errors := [] } := by
  simp [fetchProjects, h]

/-- C1: while `userId` is null, `handleAddProject` (whatever the draft),
`handleToggleProject` (whatever the project id and flag) and
`handleDeleteProject` (whatever the project id) issue no request and return
the state they were given, so `projects`, `newProjectName`, `userId` and
`isLoading` are unchanged. -/
theorem handlers_noop_when_userId_null (s : AppState) (net : Request → FetchResult)
    (projectId : String) (completed : Bool) (h : s.userId = none) :
    (∀ draft : String,
      handleAddProject { s with newProjectName := draft } net =
        { state := { s with newProjectName := draft }, requests := [], errors := [] }) ∧
    handleToggleProject s projectId completed net =
      { state := s, requests := [], errors := [] } ∧
    handleDeleteProject s projectId net = { state := s, requests := [], errors := [] } := by
  refine ⟨?_, ?_, ?_⟩
  · intro draft
    unfold handleAddProject
    split
    · rfl
    · simp [h, truthyUserId]
  · simp [handleToggleProject, h, truthyUserId]
  · simp [handleDeleteProject, h, truthyUserId]

theorem handlers_noop_when_userId_null_witness :
    initialState.userId = none ∧
    ((∀ draft : String,
      handleAddProject { initialState with newProjectName := draft } (fun _ => .response true none) =
        { state := { initialState with newProjectName := draft }, requests := [], errors := [] }) ∧
    handleToggleProject initialState "p1" false (fun _ => .response true none) =
      { state := initialState, requests := [], errors := [] } ∧
    handleDeleteProject initialState "p1" (fun _ => .response true none) =
      { state := initialState, requests := [], errors := [] }) :=
  ⟨rfl, handlers_noop_when_userId_null initialState (fun _ => .response true none) "p1" false rfl⟩

/-- C2: when the draft is empty or holds only white space, `handleAddProject`
issues no request and returns the state it was given, for every `userId`. -/
theorem handleAddProject_blank_draft_noop (s : AppState) (net : Request → FetchResult)
    (h : ∀ c ∈ s.newProjectName.data, isJsWhiteSpace c = true) :
    handleAddProject s net = { state := s, requests := [], errors := [] } := by
  simp [handleAddProject, jsTrim_of_all_white s.newProjectName h]

theorem handleAddProject_blank_draft_noop_witness :
    (∀ c ∈ (" \t\n").data, isJsWhiteSpace c = true) ∧
    handleAddProject
      { projects := [], newProjectName := " \t\n", userId := some "u1", isLoading := false }
      (fun _ => .response true (some [])) =
      { state := { projects := [], newProjectName := " \t\n", userId := some "u1",
                   isLoading := false },
        requests := [], errors := [] } :=
  ⟨by decide, handleAddProject_blank_draft_noop _ _ (by decide)⟩

/-! ## Requests issued by the handlers -/

/-- C3 as stated fails: with `userId = ''` (not null) the guard `!userId`
returns before any request is issued, so no PUT is sent. -/
theorem toggle_put_for_every_nonnull_userId_fails :
    ¬ (∀ (s : AppState) (u projectId : String) (c : Bool) (net : Request → FetchResult),
        s.userId = some u →
        (handleToggleProject s projectId c net).requests.filter
          (fun r => decide (r.method = Method.PUT)) = [updateRequest u projectId (!c)]) := by
  intro h
  have h1 := h emptyUidState "" "p1" false (fun _ => .response true (some [])) rfl
  simp [handleToggleProject, emptyUidState, truthyUserId] at h1

/-- C3, amended: for every `userId` that is neither null nor empty, every
project id and every flag `c`, `handleToggleProject` issues exactly one PUT; it
is the first request, goes to `API_URL/projectId`, and its body has the fields
`userId` (the session's) and `completed = !c`. -/
theorem handleToggleProject_put (s : AppState) (u projectId : String) (c : Bool)
    (net : Request → FetchResult) (hu : s.userId = some u) (hne : u ≠ "") :
    (handleToggleProject s projectId c net).requests.filter
        (fun r => decide (r.method = Method.PUT)) = [updateRequest u projectId (!c)] ∧
    (handleToggleProject s projectId c net).requests.head? =
        some (updateRequest u projectId (!c)) ∧
    (updateRequest u projectId (!c)).url = API_URL ++ "/" ++ projectId ∧
    (updateRequest u projectId (!c)).body =
        some [("userId", JsonValue.str u), ("completed", JsonValue.bool (!c))] := by
  have ht : truthyUserId s.userId = some u := by rw [hu]; exact truthyUserId_some hne
  refine ⟨?_, ?_, rfl, rfl⟩
  · unfold handleToggleProject
    simp only [ht]
    cases net (updateRequest u projectId (!c)) with
    | rejected => simp [updateRequest]
    | response ok j => simp [fetchProjects_requests s net u ht, updateRequest, listRequest]
  · unfold handleToggleProject
    simp only [ht]
    cases net (updateRequest u projectId (!c)) <;> simp

theorem handleToggleProject_put_witness :
    (readyState.userId = some "u1" ∧ "u1" ≠ "") ∧
    ((handleToggleProject readyState "p1" false (fun _ => .response true (some []))).requests.filter
        (fun r => decide (r.method = Method.PUT)) = [updateRequest "u1" "p1" (!false)] ∧
    (handleToggleProject readyState "p1" false (fun _ => .response true (some []))).requests.head? =
        some (updateRequest "u1" "p1" (!false)) ∧
    (updateRequest "u1" "p1" (!false)).url = API_URL ++ "/" ++ "p1" ∧
    (updateRequest "u1" "p1" (!false)).body =
        some [("userId", JsonValue.str "u1"), ("completed", JsonValue.bool (!false))]) :=
  ⟨⟨rfl, by decide⟩,
   handleToggleProject_put readyState "u1" "p1" false (fun _ => .response true (some []))
     rfl (by decide)⟩

/-- C8 as stated fails: with `userId = ''` (not null) and a non-blank draft the
guard `!userId` returns before any request is issued, so no POST is sent. -/
theorem create_post_for_every_nonnull_userId_fails :
    ¬ (∀ (s : AppState) (u : String) (net : Request → FetchResult),
        s.userId = some u → jsTrim s.newProjectName ≠ "" →
        (handleAddProject s net).requests.filter
          (fun r => decide (r.method = Method.POST)) =
          [createRequest u (jsTrim s.newProjectName)]) := by
  intro h
  have h1 := h emptyUidState "" (fun _ => .response true (some [])) rfl (by decide)
  simp [handleAddProject, emptyUidState, truthyUserId] at h1

/-- C8, amended: for every `userId` that is neither null nor empty and every
draft whose trimmed value is not empty, `handleAddProject` issues exactly one
POST; it is the first request, goes to `API_URL`, and its body has exactly the
fields `userId` (the session's) and `projectName`, the trimmed draft, which is
not empty and neither starts nor ends with white space. -/
theorem handleAddProject_post (s : AppState) (u : String) (net : Request → FetchResult)
    (hu : s.userId = some u) (hne : u ≠ "") (hd : jsTrim s.newProjectName ≠ "") :
    (handleAddProject s net).requests.filter
        (fun r => decide (r.method = Method.POST)) =
        [createRequest u (jsTrim s.newProjectName)] ∧
    (handleAddProject s net).requests.head? =
        some (createRequest u (jsTrim s.newProjectName)) ∧
    (createRequest u (jsTrim s.newProjectName)).url = API_URL ∧
    (createRequest u (jsTrim s.newProjectName)).body =
        some [("userId", JsonValue.str u),
              ("projectName", JsonValue.str (jsTrim s.newProjectName))] ∧
    jsTrim s.newProjectName ≠ "" ∧
    (∃ hn : (jsTrim s.newProjectName).data ≠ [],
      isJsWhiteSpace ((jsTrim s.newProjectName).data.head hn) = false ∧
      isJsWhiteSpace ((jsTrim s.newProjectName).data.getLast hn) = false) := by
  have ht : truthyUserId s.userId = some u := by rw [hu]; exact truthyUserId_some hne
  have hn : trimChars s.newProjectName.data ≠ [] := (jsTrim_ne_empty_iff _).mp hd
  refine ⟨?_, ?_, rfl, rfl, hd, ⟨hn, trimChars_head _ hn, trimChars_getLast _ hn⟩⟩
  · unfold handleAddProject
    simp only [hd, if_false, ht]
    cases net (createRequest u (jsTrim s.newProjectName)) with
    | rejected => simp [createRequest]
    | response ok j =>
      have := fetchProjects_requests { s with newProjectName := "" } net u ht
      simp [this, createRequest, listRequest]
  · unfold handleAddProject
    simp only [hd, if_false, ht]
    cases net (createRequest u (jsTrim s.newProjectName)) <;> simp

theorem handleAddProject_post_witness :
    (readyState.userId = some "u1" ∧ "u1" ≠ "" ∧ jsTrim readyState.newProjectName ≠ "") ∧
    jsTrim readyState.newProjectName = "Write spec" ∧
    (handleAddProject readyState (fun _ => .response true (some []))).requests.filter
        (fun r => decide (r.method = Method.POST)) =
        [createRequest "u1" (jsTrim readyState.newProjectName)] :=
  ⟨⟨rfl, by decide, by decide⟩, by decide,
   (handleAddProject_post readyState "u1" (fun _ => .response true (some []))
     rfl (by decide) (by decide)).1⟩

/-! ## Refetch after a mutation -/

/-- C4 as stated fails: when the PUT of `handleToggleProject` is rejected
(network failure) the handler goes to its `catch` and no list request is
made. -/
theorem refetch_after_failed_mutation_fails :
    ¬ (∀ (s : AppState) (u projectId : String) (c : Bool) (net : Request → FetchResult),
        s.userId = some u → u ≠ "" →
        countMethod Method.GET (handleToggleProject s projectId c net).requests = 1) := by
  intro h
  have h1 := h readyState "u1" "p1" false (fun _ => .rejected) rfl (by decide)
  simp [handleToggleProject, readyState, truthyUserId, countMethod, updateRequest] at h1

/-- C4, amended: for a `userId` that is neither null nor empty, each mutating
handler issues its mutation request and then, when that request resolved with
a response (2xx or not), exactly one list request and nothing else; when the
mutation request was rejected (network failure) it issues no list request. -/
theorem handlers_refetch_after_mutation (s : AppState) (u projectId : String) (c : Bool)
    (net : Request → FetchResult) (hu : s.userId = some u) (hne : u ≠ "") :
    (jsTrim s.newProjectName ≠ "" →
      (handleAddProject s net).requests =
        createRequest u (jsTrim s.newProjectName) ::
          refetchAfter u (net (createRequest u (jsTrim s.newProjectName)))) ∧
    (handleToggleProject s projectId c net).requests =
        updateRequest u projectId (!c) ::
          refetchAfter u (net (updateRequest u projectId (!c))) ∧
    (handleDeleteProject s projectId net).requests =
        deleteRequest u projectId :: refetchAfter u (net (deleteRequest u projectId)) ∧
    (∀ ok json, countMethod Method.GET (refetchAfter u (.response ok json)) = 1) ∧
    countMethod Method.GET (refetchAfter u .rejected) = 0 := by
  have ht : truthyUserId s.userId = some u := by rw [hu]; exact truthyUserId_some hne
  refine ⟨?_, ?_, ?_, ?_, ?_⟩
  · intro hd
    unfold handleAddProject
    simp only [hd, if_false, ht]
    cases net (createRequest u (jsTrim s.newProjectName)) with
    | rejected => simp [refetchAfter]
    | response ok j =>
      simp [refetchAfter, fetchProjects_requests { s with newProjectName := "" } net u ht]
  · unfold handleToggleProject
    simp only [ht]
    cases net (updateRequest u projectId (!c)) with
    | rejected => simp [refetchAfter]
    | response ok j => simp [refetchAfter, fetchProjects_requests s net u ht]
  · unfold handleDeleteProject
    simp only [ht]
    cases net (deleteRequest u projectId) with
    | rejected => simp [refetchAfter]
    | response ok j => simp [refetchAfter, fetchProjects_requests s net u ht]
  · intro ok json
    simp [refetchAfter, countMethod, listRequest]
  · simp [refetchAfter, countMethod]

theorem handlers_refetch_after_mutation_witness :
    (readyState.userId = some "u1" ∧ "u1" ≠ "") ∧
    (handleDeleteProject readyState "p1" (fun _ => .response false none)).requests =
      [deleteRequest "u1" "p1", listRequest "u1"] :=
  ⟨⟨rfl, by decide⟩,
   (handlers_refetch_after_mutation readyState "u1" "p1" false (fun _ => .response false none)
     rfl (by decide)).2.2.1⟩

/-! ## Failures -/

theorem fetchProjectsResume_fails (s : AppState) (r : FetchResult)
    (h : listFetchFails r = true) :
    (fetchProjectsResume s r).1 = { s with isLoading := false } ∧
    (fetchProjectsResume s r).2 ≠ [] := by
  cases r with
  | rejected => simp [fetchProjectsResume]
  | response ok j =>
    cases j with
    | none => simp [fetchProjectsResume]
    | some d =>
      cases ok with
      | true => simp [listFetchFails] at h
      | false => simp [fetchProjectsResume]

/-- C5: when the list request of `fetchProjects` fails (rejected, unparsable
body, or response not ok), `fetchProjects` still returns, with `projects`,
`newProjectName` and `userId` as before; when a request was made (user id not
empty) the failure was logged and loading has ended. -/
theorem fetchProjects_failure_keeps_state (s : AppState) (u : String)
    (net : Request → FetchResult) (hu : s.userId = some u)
    (hfail : listFetchFails (net (listRequest u)) = true) :
    (fetchProjects s net).state.projects = s.projects ∧
    (fetchProjects s net).state.newProjectName = s.newProjectName ∧
    (fetchProjects s net).state.userId = s.userId ∧
    (u ≠ "" → (fetchProjects s net).requests = [listRequest u] ∧
      (fetchProjects s net).errors ≠ [] ∧
      (fetchProjects s net).state.isLoading = false) := by
  by_cases hne : u = ""
  · have ht : truthyUserId s.userId = none := by simp [hu, hne, truthyUserId]
    simp [fetchProjects_falsy s net ht, hne]
  · have ht : truthyUserId s.userId = some u := by rw [hu]; exact truthyUserId_some hne
    have hr := fetchProjectsResume_fails { s with isLoading := true } _ hfail
    simp only [fetchProjects, ht]
    simp [hr.1, hr.2]

theorem fetchProjects_failure_keeps_state_witness :
    (readyState.userId = some "u1" ∧
      listFetchFails ((fun _ => FetchResult.response false (some [])) (listRequest "u1")) = true) ∧
    (fetchProjects readyState (fun _ => .response false (some []))).state.projects =
      readyState.projects :=
  ⟨⟨rfl, rfl⟩,
   (fetchProjects_failure_keeps_state readyState "u1" (fun _ => .response false (some []))
     rfl rfl).1⟩

/-- C6 as stated fails: when the POST resolves with a response that is not ok,
`handleAddProject` does not look at the response and clears the draft. -/
theorem draft_kept_on_failed_create_fails :
    ¬ (∀ (s : AppState) (u : String) (net : Request → FetchResult),
        s.userId = some u → u ≠ "" → jsTrim s.newProjectName ≠ "" →
        mutationFails (net (createRequest u (jsTrim s.newProjectName))) = true →
        (handleAddProject s net).state.newProjectName = s.newProjectName) := by
  intro h
  have h1 := h readyState "u1" (fun _ => .response false none) rfl (by decide) (by decide) rfl
  have h2 : jsTrim readyState.newProjectName ≠ "" := by decide
  simp [handleAddProject, h2, fetchProjects, fetchProjectsResume] at h1
  simp [readyState, truthyUserId] at h1

/-- C6, amended: for a non-blank draft, when the POST is rejected (network
failure) `handleAddProject` returns the state it was given, so the draft is as
before; when the POST resolves with any response, ok or not, and the user id
is neither null nor empty, the draft is cleared. -/
theorem handleAddProject_draft (s : AppState) (u : String) (net : Request → FetchResult)
    (hu : s.userId = some u) (hd : jsTrim s.newProjectName ≠ "") :
    (net (createRequest u (jsTrim s.newProjectName)) = .rejected →
      (handleAddProject s net).state = s) ∧
    (u ≠ "" → ∀ ok json,
      net (createRequest u (jsTrim s.newProjectName)) = .response ok json →
      (handleAddProject s net).state.newProjectName = "") := by
  constructor
  · intro hr
    by_cases hne : u = ""
    · simp [handleAddProject, hu, hne, truthyUserId]
    · simp [handleAddProject, hd, hu, truthyUserId, hne, hr]
  · intro hne ok json hr
    have ht : truthyUserId (some u) = some u := truthyUserId_some hne
    simp only [handleAddProject, hd, if_false, hu, ht, hr]
    simp only [fetchProjects, ht]
    cases hres : net (listRequest u) with
    | rejected => simp [fetchProjectsResume]
    | response ok2 j2 =>
      cases j2 with
      | none => simp [fetchProjectsResume]
      | some d => cases ok2 <;> simp [fetchProjectsResume]

theorem handleAddProject_draft_witness :
    (readyState.userId = some "u1" ∧ jsTrim readyState.newProjectName ≠ "") ∧
    (handleAddProject readyState (fun _ => .rejected)).state = readyState :=
  ⟨⟨rfl, by decide⟩,
   (handleAddProject_draft readyState "u1" (fun _ => .rejected) rfl (by decide)).1 rfl⟩

/-! ## Out-of-order list responses -/

theorem fetchProjectsResume_projects (s : AppState) (r : FetchResult) :
    (fetchProjectsResume s r).1.projects = (lastSuccessfulData [r]).getD s.projects := by
  cases r with
  | rejected => rfl
  | response ok j =>
    cases j with
    | none => cases ok <;> rfl
    | some d => cases ok <;> rfl

theorem settleAll_projects (s : AppState) (rs : List FetchResult) :
    (settleAll s rs).projects = (lastSuccessfulData rs).getD s.projects := by
  induction rs generalizing s with
  | nil => rfl
  | cons r rs ih =>
    have hstep : settleAll s (r :: rs) = settleAll (fetchProjectsResume s r).1 rs := rfl
    rw [hstep, ih, fetchProjectsResume_projects]
    cases hl : lastSuccessfulData rs with
    | some d => simp [lastSuccessfulData, hl]
    | none =>
      cases r with
      | rejected => simp [lastSuccessfulData, hl]
      | response ok j =>
        cases j with
        | none => simp [lastSuccessfulData, hl]
        | some d => cases ok <;> simp [lastSuccessfulData, hl]

/-- C9: list responses are applied in the order in which they resolve, each
successful one replacing `projects` whole.  After any sequence of
completions `projects` is the data of the last successful one (or the old
list when none succeeded); and with two list requests `a`, `b` in flight,
issued in that order, whose successful responses are processed first `d1`
then `d2`, the final `projects` is `d2` both when `a` resolves first and when
`b` resolves first. -/
theorem last_resolved_list_response_wins :
    (∀ (s : AppState) (rs : List FetchResult),
      (settleAll s rs).projects = (lastSuccessfulData rs).getD s.projects) ∧
    (∀ (s : AppState) (rs : List FetchResult) (d : List Project),
      (settleAll s (rs ++ [.response true (some d)])).projects = d) ∧
    (∀ (sys : Sys) (a b : InFlight) (d1 d2 : List Project),
      sys.inFlight = [a, b] → a.cont = .list → b.cont = .list →
      (∃ s', run sys [.settled 0 (.response true (some d1)),
                      .settled 0 (.response true (some d2))] = some s' ∧
             s'.app.projects = d2 ∧ s'.inFlight = []) ∧
      (∃ s', run sys [.settled 1 (.response true (some d1)),
                      .settled 0 (.response true (some d2))] = some s' ∧
             s'.app.projects = d2 ∧ s'.inFlight = [])) := by
  refine ⟨settleAll_projects, ?_, ?_⟩
  · intro s rs d
    simp [settleAll, List.foldl_append, fetchProjectsResume]
  · intro sys a b d1 d2 hf ha hb
    constructor
    · simp [run, step, hf, resume, ha, hb, fetchProjectsResume]
    · simp [run, step, hf, resume, ha, hb, fetchProjectsResume]

theorem last_resolved_list_response_wins_witness :
    (twoListsInFlight.inFlight =
        [{ request := listRequest "u1", cont := .list },
         { request := listRequest "u1", cont := .list }]) ∧
    (∃ s', run twoListsInFlight
        [.settled 1 (.response true (some [])),
         .settled 0 (.response true (some readyState.projects))] = some s' ∧
      s'.app.projects = readyState.projects ∧ s'.inFlight = []) :=
  ⟨rfl,
   (last_resolved_list_response_wins.2.2 twoListsInFlight
     { request := listRequest "u1", cont := .list }
     { request := listRequest "u1", cont := .list } [] readyState.projects rfl rfl rfl).2⟩

/-! ## Reachable states -/

theorem fetchProjectsBegin_app (c : Option String) (s : Sys) :
    (fetchProjectsBegin c s).app.userId = s.app.userId ∧
    (fetchProjectsBegin c s).app.projects = s.app.projects := by
  unfold fetchProjectsBegin
  cases truthyUserId c <;> simp

theorem fetchProjectsResume_userId (s : AppState) (r : FetchResult) :
    (fetchProjectsResume s r).1.userId = s.userId := by
  cases r with
  | rejected => rfl
  | response ok j =>
    cases j with
    | none => cases ok <;> rfl
    | some d => cases ok <;> rfl

theorem resume_userId (s : Sys) (k : Continuation) (r : FetchResult) :
    (resume s k r).app.userId = s.app.userId := by
  cases k with
  | list => exact fetchProjectsResume_userId s.app r
  | create uid => cases r <;> simp [resume, (fetchProjectsBegin_app _ _).1]
  | refresh uid => cases r <;> simp [resume, (fetchProjectsBegin_app _ _).1]

/-- A step keeps `userId`, or is the auth callback with a user and stores its
uid. -/
theorem step_userId (s s' : Sys) (e : Event) (h : step s e = some s') :
    s'.app.userId = s.app.userId ∨
    ∃ uid, e = .authStateChanged (some uid) ∧ s'.app.userId = some uid := by
  cases e with
  | authStateChanged user =>
    cases user with
    | none => simp [step] at h; subst h; exact Or.inl rfl
    | some uid => simp [step] at h; subst h; exact Or.inr ⟨uid, rfl, rfl⟩
  | initFailed => simp [step] at h; subst h; exact Or.inl rfl
  | draftChanged v => simp [step] at h; subst h; exact Or.inl rfl
  | effectFetch =>
    simp [step] at h; subst h; exact Or.inl (fetchProjectsBegin_app _ _).1
  | submit =>
    simp only [step] at h
    split at h
    · simp at h; subst h; exact Or.inl rfl
    · split at h <;> (simp at h; subst h; exact Or.inl rfl)
  | toggle pid c =>
    simp only [step] at h
    split at h <;> (simp at h; subst h; exact Or.inl rfl)
  | delete pid =>
    simp only [step] at h
    split at h <;> (simp at h; subst h; exact Or.inl rfl)
  | settled i r =>
    simp only [step] at h
    split at h
    · simp at h
    · simp at h; subst h; exact Or.inl (resume_userId _ _ _)

theorem Inv_initialSys : Inv initialSys := by
  constructor
  · intro _; exact ⟨rfl, rfl⟩
  · intro f hf; simp [initialSys] at hf

theorem Inv_fetchProjectsBegin (c : Option String) (s : Sys) (h : Inv s)
    (hc : truthyUserId c ≠ none → s.app.userId ≠ none) : Inv (fetchProjectsBegin c s) := by
  unfold fetchProjectsBegin
  cases ht : truthyUserId c with
  | none => exact h
  | some uid =>
    have hne : uid ≠ "" := (truthyUserId_eq_some ht).2
    constructor
    · intro hu
      exact absurd hu (hc (by simp [ht]))
    · intro f hf hk
      simp only [List.mem_append, List.mem_singleton] at hf
      rcases hf with hf | hf
      · exact h.2 f hf hk
      · exact ⟨uid, hne, by rw [hf]⟩

theorem Inv_step (s s' : Sys) (e : Event) (hi : Inv s) (h : step s e = some s') : Inv s' := by
  cases e with
  | authStateChanged user =>
    cases user with
    | none => simp [step] at h; subst h; exact hi
    | some uid =>
      simp [step] at h; subst h
      exact ⟨fun hu => by simp at hu, hi.2⟩
  | initFailed => simp [step] at h; subst h; exact hi
  | draftChanged v => simp [step] at h; subst h; exact hi
  | effectFetch =>
    simp [step] at h; subst h
    apply Inv_fetchProjectsBegin _ _ hi
    intro ht hu
    rw [hu] at ht
    exact ht rfl
  | submit =>
    simp only [step] at h
    split at h
    · simp at h; subst h; exact hi
    · split at h
      · simp at h; subst h; exact hi
      · rename_i uid ht
        simp at h; subst h
        constructor
        · intro hu
          have hu' : s.app.userId = none := hu
          simp [hu', truthyUserId] at ht
        · intro f hf hk
          simp only [List.mem_append, List.mem_singleton] at hf
          rcases hf with hf | hf
          · exact hi.2 f hf hk
          · rw [hf] at hk; simp at hk
  | toggle pid c =>
    simp only [step] at h
    split at h
    · simp at h; subst h; exact hi
    · rename_i uid ht
      simp at h; subst h
      constructor
      · intro hu
        have hu' : s.app.userId = none := hu
        simp [hu', truthyUserId] at ht
      · intro f hf hk
        simp only [List.mem_append, List.mem_singleton] at hf
        rcases hf with hf | hf
        · exact hi.2 f hf hk
        · rw [hf] at hk; simp at hk
  | delete pid =>
    simp only [step] at h
    split at h
    · simp at h; subst h; exact hi
    · rename_i uid ht
      simp at h; subst h
      constructor
      · intro hu
        have hu' : s.app.userId = none := hu
        simp [hu', truthyUserId] at ht
      · intro f hf hk
        simp only [List.mem_append, List.mem_singleton] at hf
        rcases hf with hf | hf
        · exact hi.2 f hf hk
        · rw [hf] at hk; simp at hk
  | settled i r =>
    simp only [step] at h
    split at h
    · simp at h
    · rename_i f hf
      simp at h; subst h
      have hsome : s.app.userId ≠ none := by
        intro hu
        have := (hi.1 hu).2
        rw [this] at hf
        simp at hf
      have hbase : Inv { s with inFlight := s.inFlight.eraseIdx i } :=
        ⟨fun hu => absurd hu hsome,
         fun g hg hk => hi.2 g (List.mem_of_mem_eraseIdx hg) hk⟩
      cases hk : f.cont with
      | list =>
        constructor
        · intro hu
          rw [resume_userId] at hu
          exact absurd hu hsome
        · intro g hg hgk
          exact hbase.2 g (by simpa [resume] using hg) hgk
      | create uid =>
        cases r with
        | rejected => simpa [resume] using hbase
        | response ok j =>
          simp only [resume]
          apply Inv_fetchProjectsBegin
          · exact ⟨fun hu => absurd hu hsome, hbase.2⟩
          · intro _; exact hsome
      | refresh uid =>
        cases r with
        | rejected => simpa [resume] using hbase
        | response ok j =>
          simp only [resume]
          apply Inv_fetchProjectsBegin _ _ hbase
          intro _; exact hsome

theorem Inv_run (s s' : Sys) (es : List Event) (hi : Inv s) (h : run s es = some s') :
    Inv s' := by
  induction es generalizing s with
  | nil => simp [run] at h; subst h; exact hi
  | cons e es ih =>
    simp only [run] at h
    cases hs : step s e with
    | none => simp [hs] at h
    | some s1 =>
      simp [hs] at h
      exact ih s1 (Inv_step s s1 e hi hs) h

theorem Inv_of_Reachable (s : Sys) (h : Reachable s) : Inv s := by
  obtain ⟨es, hes⟩ := h
  exact Inv_run initialSys s es Inv_initialSys hes

/-! ## Loading flag before a user id is known -/

theorem Unresolved_step (s s' : Sys) (e : Event) (hp : Unresolved s)
    (he : isIdentityEvent e = false) (h : step s e = some s') : Unresolved s' := by
  obtain ⟨hu, hl, hf⟩ := hp
  cases e with
  | authStateChanged user => simp [isIdentityEvent] at he
  | initFailed => simp [isIdentityEvent] at he
  | draftChanged v => simp [step] at h; subst h; exact ⟨hu, hl, hf⟩
  | effectFetch =>
    simp [step, hu, fetchProjectsBegin, truthyUserId] at h; subst h; exact ⟨hu, hl, hf⟩
  | submit =>
    simp [step, hu, truthyUserId] at h; subst h; exact ⟨hu, hl, hf⟩
  | toggle pid c =>
    simp [step, hu, truthyUserId] at h; subst h; exact ⟨hu, hl, hf⟩
  | delete pid =>
    simp [step, hu, truthyUserId] at h; subst h; exact ⟨hu, hl, hf⟩
  | settled i r => simp [step, hf] at h

theorem Unresolved_run (s s' : Sys) (es : List Event) (hp : Unresolved s)
    (he : ∀ e ∈ es, isIdentityEvent e = false) (h : run s es = some s') : Unresolved s' := by
  induction es generalizing s with
  | nil => simp [run] at h; subst h; exact hp
  | cons e es ih =>
    simp only [run] at h
    cases hs : step s e with
    | none => simp [hs] at h
    | some s1 =>
      simp [hs] at h
      exact ih s1 (Unresolved_step s s1 e hp (he e (List.mem_cons_self _ _)) hs)
        (fun e' he' => he e' (List.mem_cons_of_mem _ he')) h

/-- C7 as stated fails: after the auth callback fired with no user the state
has `userId = null` and `isLoading = false`. -/
theorem loading_until_user_id_fails :
    ¬ (∀ s : Sys, Reachable s → s.app.userId = none → s.app.isLoading = true) := by
  intro h
  have hr : Reachable { app := { initialState with isLoading := false }, inFlight := [] } :=
    ⟨[.authStateChanged none], rfl⟩
  have := h _ hr rfl
  simp at this

/-- C7, amended: from the initial state, as long as neither the auth callback
has fired nor the initialisation has thrown, `userId` is null and `isLoading`
is true; the auth callback fired with no user and the `catch` of a failed
initialisation each set `isLoading` to false and leave `userId` as it is, so
the state with `userId = null` and `isLoading = false` is reached. -/
theorem loading_until_identity_event :
    (∀ (es : List Event) (s : Sys), run initialSys es = some s →
      (∀ e ∈ es, isIdentityEvent e = false) →
      s.app.userId = none ∧ s.app.isLoading = true) ∧
    (∀ s : Sys, step s (.authStateChanged none) =
      some { s with app := { s.app with isLoading := false } }) ∧
    (∀ s : Sys, step s .initFailed =
      some { s with app := { s.app with isLoading := false } }) ∧
    (∀ (s : Sys) (uid : String), step s (.authStateChanged (some uid)) =
      some { s with app := { s.app with userId := some uid, isLoading := false } }) := by
  refine ⟨?_, fun _ => rfl, fun _ => rfl, fun _ _ => rfl⟩
  intro es s hrun he
  have := Unresolved_run initialSys s es ⟨rfl, rfl, rfl⟩ he hrun
  exact ⟨this.1, this.2.1⟩

theorem loading_until_identity_event_witness :
    (run initialSys [.draftChanged "Write spec", .submit, .effectFetch, .toggle "p1" true] =
        some { app := { initialState with newProjectName := "Write spec" }, inFlight := [] } ∧
     (∀ e ∈ [Event.draftChanged "Write spec", .submit, .effectFetch, .toggle "p1" true],
        isIdentityEvent e = false)) ∧
    ({ app := { initialState with newProjectName := "Write spec" },
       inFlight := [] } : Sys).app.isLoading = true :=
  ⟨⟨by decide, by decide⟩,
   (loading_until_identity_event.1
     [.draftChanged "Write spec", .submit, .effectFetch, .toggle "p1" true]
     { app := { initialState with newProjectName := "Write spec" }, inFlight := [] }
     (by decide) (by decide)).2⟩

/-! ## The list while no user id is known -/

theorem fetchProjectsResume_projects_changed (s : AppState) (r : FetchResult)
    (h : (fetchProjectsResume s r).1.projects ≠ s.projects) :
    ∃ d, r = .response true (some d) ∧ (fetchProjectsResume s r).1.projects = d := by
  cases r with
  | rejected => exact absurd rfl h
  | response ok j =>
    cases j with
    | none => cases ok <;> exact absurd rfl h
    | some d =>
      cases ok with
      | false => exact absurd rfl h
      | true => exact ⟨d, rfl, rfl⟩

/-- Only the settling of a list request changes `projects`. -/
theorem step_projects_changed (s s' : Sys) (e : Event) (h : step s e = some s')
    (hc : s'.app.projects ≠ s.app.projects) :
    ∃ i d f, e = .settled i (.response true (some d)) ∧ s.inFlight[i]? = some f ∧
      f.cont = .list ∧ s'.app.projects = d := by
  cases e with
  | authStateChanged user =>
    cases user <;> (simp [step] at h; subst h; exact absurd rfl hc)
  | initFailed => simp [step] at h; subst h; exact absurd rfl hc
  | draftChanged v => simp [step] at h; subst h; exact absurd rfl hc
  | effectFetch =>
    simp [step] at h; subst h; exact absurd (fetchProjectsBegin_app _ _).2 hc
  | submit =>
    simp only [step] at h
    split at h
    · simp at h; subst h; exact absurd rfl hc
    · split at h <;> (simp at h; subst h; exact absurd rfl hc)
  | toggle pid c =>
    simp only [step] at h
    split at h <;> (simp at h; subst h; exact absurd rfl hc)
  | delete pid =>
    simp only [step] at h
    split at h <;> (simp at h; subst h; exact absurd rfl hc)
  | settled i r =>
    simp only [step] at h
    split at h
    · simp at h
    · rename_i f hf
      simp at h; subst h
      cases hk : f.cont with
      | list =>
        rw [hk] at hc
        obtain ⟨d, hr, hd⟩ := fetchProjectsResume_projects_changed s.app r hc
        subst hr
        exact ⟨i, d, f, rfl, hf, hk, hd⟩
      | create uid =>
        rw [hk] at hc
        cases r with
        | rejected => exact absurd rfl hc
        | response ok j => exact absurd (fetchProjectsBegin_app _ _).2 hc
      | refresh uid =>
        rw [hk] at hc
        cases r with
        | rejected => exact absurd rfl hc
        | response ok j => exact absurd (fetchProjectsBegin_app _ _).2 hc

/-- C10 as stated fails for the empty user id: in a reachable state with
`userId = ''`, `fetchProjects` makes no call but the list is not empty. -/
theorem empty_list_when_userId_null_or_empty_fails :
    ¬ (∀ (s : Sys) (net : Request → FetchResult), Reachable s →
        truthyUserId s.app.userId = none →
        (fetchProjects s.app net).requests = [] ∧
        (fetchProjects s.app net).state.projects = []) := by
  intro h
  have hr : Reachable { app := { projects := readyState.projects, newProjectName := "",
                                 userId := some "", isLoading := false },
                        inFlight := [] } := ⟨emptyUidTrace, by decide⟩
  have := (h _ (fun _ => .rejected) hr rfl).2
  simp [fetchProjects, truthyUserId, readyState] at this

/-- C10, amended: `fetchProjects` invoked while `userId` is null or empty makes
no HTTP call and returns the state unchanged; in every reachable state with
`userId = null` the list is empty, so there the resulting list is empty; a
step never resets a non-null `userId` to null; and `projects` changes only
when a list request settles successfully, a request that was built from a user
id that is neither null nor empty. -/
theorem userId_null_implies_no_projects :
    (∀ (a : AppState) (net : Request → FetchResult), truthyUserId a.userId = none →
      fetchProjects a net = { state := a, requests := [], errors := [] }) ∧
    (∀ (s : Sys) (net : Request → FetchResult), Reachable s → s.app.userId = none →
      s.app.projects = [] ∧ (fetchProjects s.app net).requests = [] ∧
      (fetchProjects s.app net).state.projects = []) ∧
    (∀ (s s' : Sys) (e : Event), step s e = some s' → s.app.userId ≠ none →
      s'.app.userId ≠ none) ∧
    (∀ (s s' : Sys) (e : Event), Reachable s → step s e = some s' →
      s'.app.projects ≠ s.app.projects →
      ∃ i d uid, e = .settled i (.response true (some d)) ∧ uid ≠ "" ∧
        s.inFlight[i]? = some { request := listRequest uid, cont := .list } ∧
        s'.app.projects = d) := by
  refine ⟨fetchProjects_falsy, ?_, ?_, ?_⟩
  · intro s net hr hu
    have hp := ((Inv_of_Reachable s hr).1 hu).1
    have ht : truthyUserId s.app.userId = none := by rw [hu]; rfl
    rw [fetchProjects_falsy s.app net ht]
    exact ⟨hp, rfl, hp⟩
  · intro s s' e h hu
    rcases step_userId s s' e h with h1 | ⟨uid, _, h1⟩
    · rw [h1]; exact hu
    · rw [h1]; simp
  · intro s s' e hr h hc
    obtain ⟨i, d, f, he, hf, hk, hd⟩ := step_projects_changed s s' e h hc
    obtain ⟨uid, hne, hreq⟩ := (Inv_of_Reachable s hr).2 f (List.getElem?_mem hf) hk
    refine ⟨i, d, uid, he, hne, ?_, hd⟩
    rw [hf]
    cases f
    simp at hk hreq
    simp [hk, hreq]

theorem userId_null_implies_no_projects_witness :
    (Reachable { app := { initialState with isLoading := false }, inFlight := [] } ∧
     ({ app := { initialState with isLoading := false }, inFlight := [] } : Sys).app.userId
        = none) ∧
    ({ app := { initialState with isLoading := false }, inFlight := [] } : Sys).app.projects
      = [] :=
  ⟨⟨⟨[.authStateChanged none], rfl⟩, rfl⟩,
   (userId_null_implies_no_projects.2.1
     { app := { initialState with isLoading := false }, inFlight := [] }
     (fun _ => .rejected) ⟨[.authStateChanged none], rfl⟩ rfl).1⟩

/-! ## Agreement of the two semantics -/

/-- A click on the toggle button followed by the settling of its two requests
ends in the state that `handleToggleProject` computes. -/
theorem run_toggle_eq_handleToggleProject (a : AppState) (u projectId : String) (c : Bool)
    (net : Request → FetchResult) (hu : a.userId = some u) (hne : u ≠ "")
    (ok : Bool) (json : Option (List Project))
    (hr : net (updateRequest u projectId (!c)) = .response ok json) :
    run { app := a, inFlight := [] }
      [.toggle projectId c, .settled 0 (net (updateRequest u projectId (!c))),
       .settled 0 (net (listRequest u))] =
    some { app := (handleToggleProject a projectId c net).state, inFlight := [] } := by
  have ht : truthyUserId (some u) = some u := truthyUserId_some hne
  simp [run, step, hu, ht, hr, resume, fetchProjectsBegin, handleToggleProject, fetchProjects]

/-- A submit of the form followed by the settling of its two requests ends in
the state that `handleAddProject` computes. -/
theorem run_submit_eq_handleAddProject (a : AppState) (u : String)
    (net : Request → FetchResult) (hu : a.userId = some u) (hne : u ≠ "")
    (hd : jsTrim a.newProjectName ≠ "") (ok : Bool) (json : Option (List Project))
    (hr : net (createRequest u (jsTrim a.newProjectName)) = .response ok json) :
    run { app := a, inFlight := [] }
      [.submit, .settled 0 (net (createRequest u (jsTrim a.newProjectName))),
       .settled 0 (net (listRequest u))] =
    some { app := (handleAddProject a net).state, inFlight := [] } := by
  have ht : truthyUserId (some u) = some u := truthyUserId_some hne
  simp [run, step, hu, ht, hr, hd, resume, fetchProjectsBegin, handleAddProject, fetchProjects]

end ProjectTracker
